import Mathlib

/-!
# Verification of the notion-deglacer unfurl pipeline

Shallow embedding of `src/deglacer.go` (package `deglacer`): the HTTP event
handler `index`, the preview extractor `get_text`, and the per-event unfurl
aggregator `unfurl`.  External collaborators (the Slack signature verifier,
the Slack events parser, `url.Parse`, `notionapi.ExtractNoDashIDFromNotionURL`,
`notionapi.Client.DownloadPage`, `tomarkdown.ToMarkdown`) are modelled as
oracle functions carried in environment records; the repository's own control
flow is translated statement by statement.
-/

namespace Deglacer

/-- One shared link of a Slack `link_shared` event (`slackevents.SharedLinks`):
a `Domain` and a `URL` string, as delivered by Slack. -/
structure SharedLink where
  domain : String
  url : String
deriving DecidableEq

/-- The inner `link_shared` callback event (`slackevents.LinkSharedEvent`):
channel, message timestamp (already rendered to a string, as by
`ev.MessageTimeStamp.String()`), and the list of links. -/
structure LinkSharedEvent where
  channel : String
  messageTimeStamp : String
  links : List SharedLink
deriving DecidableEq

/-- Go's `strings.HasSuffix(s, post)`: `s` ends with `post`.  Stated over the
code-point list of the string; for valid UTF-8 this coincides with Go's
byte-level suffix test, because UTF-8 is self-synchronising. -/
def stringsHasSuffix (s post : String) : Bool :=
  decide (post.data.length ≤ s.data.length
    ∧ s.data.drop (s.data.length - post.data.length) = post.data)

/-- Worker for `stringsSplitNL`: accumulate the current field (reversed) and
emit it at each newline. -/
def stringsSplitNLAux : List Char → List Char → List String
  | [], acc => [String.mk acc.reverse]
  | c :: cs, acc =>
    if c = '\n' then String.mk acc.reverse :: stringsSplitNLAux cs []
    else stringsSplitNLAux cs (c :: acc)

/-- Go's `strings.Split(s, "\n")` (the only separator the source uses):
the fields between newlines, in order; one more field than newlines. -/
def stringsSplitNL (s : String) : List String :=
  stringsSplitNLAux s.data []

/-- Go's `strings.Join(lines, "\n")` (the only separator the source uses). -/
def stringsJoinNL : List String → String
  | [] => ""
  | [l] => l
  | l :: ls => l ++ "\n" ++ stringsJoinNL ls

/-- A parsed URL as produced by Go's `url.Parse`: `base` is everything except
the query string and the fragment; `rawQuery` and `fragment` are the parts the
code clears before re-serialising. -/
structure URL where
  base : String
  rawQuery : String
  fragment : String
deriving DecidableEq

/-- Go's `(*url.URL).String()` restricted to the three components we model:
the base, then `?query` when the query is nonempty, then `#fragment` when the
fragment is nonempty. -/
def URL.toString (u : URL) : String :=
  u.base
    ++ (if u.rawQuery = "" then "" else "?" ++ u.rawQuery)
    ++ (if u.fragment = "" then "" else "#" ++ u.fragment)

/-- Lines 182–183 of the source: `u.RawQuery = ""` and `u.Fragment = ""`. -/
def stripQueryFragment (u : URL) : URL :=
  { u with rawQuery := "", fragment := "" }

/-- A Notion collection (only its resolved name matters here). -/
structure Collection where
  name : String
deriving DecidableEq

/-- `notionapi.Collection.GetName()`. -/
def Collection.GetName (c : Collection) : String := c.name

/-- One entry of `page.Root().TableViews`. -/
structure TableView where
  collection : Collection
deriving DecidableEq

/-- The root block of a downloaded page: its `Title` and its `TableViews`
slice. -/
structure RootBlock where
  title : String
  tableViews : List TableView
deriving DecidableEq

/-- A downloaded Notion page: its root block, plus the markdown text that
`tomarkdown.ToMarkdown` produces for it (the conversion library is a black
box, so its output is part of the page model). -/
structure Page where
  root : RootBlock
  markdown : String
deriving DecidableEq

/-- A Slack attachment as built at lines 203–208 of the source. -/
structure Attachment where
  title : String
  titleLink : String
  footer : String
  text : String
deriving DecidableEq

/-- Oracle environment for `unfurl`: `url.Parse` (with `none` for a parse
error), `notionapi.ExtractNoDashIDFromNotionURL`, and
`notionClient.DownloadPage` (with `none` for any download error). -/
structure NotionEnv where
  parseURL : String → Option URL
  extractID : String → String
  downloadPage : String → Option Page

/-! ## get_text (lines 141–166) -/

/-- The loop of `get_text`: iterate over the split lines with index `i`,
append every line whose index is neither 0 nor 1, and break as soon as 25
lines have been collected.  The accumulator is kept reversed. -/
def collectLines : List String → Nat → List String → List String
  | [], _, acc => acc.reverse
  | l :: ls, i, acc =>
    let acc' := if i ≠ 0 ∧ i ≠ 1 then l :: acc else acc
    if acc'.length ≥ 25 then acc'.reverse else collectLines ls (i + 1) acc'

/-- `get_text` (lines 141–166): split the markdown on newlines, drop the first
two lines and cap at 25 lines via the loop, join with newline, then cut the
rune slice to 1000 when its length is at least 1000. -/
def get_text (page : Page) : String :=
  let md := page.markdown
  let lines := collectLines (stringsSplitNL md) 0 []
  let text := stringsJoinNL lines
  let rs := text.toList
  let rs' := if rs.length ≥ 1000 then rs.take 1000 else rs
  String.mk rs'

/-! ## Per-link resolution (body of the loop at lines 171–209) -/

/-- Outcome of the title resolution at lines 192–200.  `panicIndex` is the Go
runtime panic raised by `page.Root().TableViews[0]` when the `TableViews`
slice is empty: the source indexes it without a bounds check. -/
inductive TitleResult where
  | panicIndex
  | skip
  | ok (title : String)
deriving DecidableEq

/-- Lines 192–200: prefer `page.Root().Title`; if empty, read
`TableViews[0].Collection.GetName()` (a runtime panic when `TableViews` is
empty); if that is also empty, log and skip. -/
def resolveTitle (b : RootBlock) : TitleResult :=
  if b.title ≠ "" then .ok b.title
  else
    match b.tableViews with
    | [] => .panicIndex
    | tv :: _ =>
      let t := tv.collection.GetName
      if t = "" then .skip else .ok t

/-- Outcome of one iteration of the link loop: `skipped` covers every
`continue` (domain mismatch, URL parse error, download error, empty title),
`crashed` is the unrecovered Go panic from `resolveTitle`, and `resolved`
carries the attachment stored into the `unfurls` map. -/
inductive LinkOutcome where
  | skipped
  | crashed
  | resolved (att : Attachment)
deriving DecidableEq

/-- The body of the loop at lines 171–209 for one link: domain filter
(`strings.HasSuffix(link.Domain, ".notion.so")`), `url.Parse`, clearing query
and fragment, ID extraction, page download, title resolution, and attachment
construction. -/
def resolveLink (env : NotionEnv) (link : SharedLink) : LinkOutcome :=
  if ¬ stringsHasSuffix link.domain ".notion.so" then .skipped
  else
    match env.parseURL link.url with
    | none => .skipped
    | some u =>
      let u' := stripQueryFragment u
      let pageID := env.extractID u'.toString
      match env.downloadPage pageID with
      | none => .skipped
      | some page =>
        match resolveTitle page.root with
        | .panicIndex => .crashed
        | .skip => .skipped
        | .ok title =>
          .resolved
            { title := title
              titleLink := link.url
              footer := "Notion"
              text := get_text page }

/-- `true` exactly on `LinkOutcome.resolved`. -/
def isResolved : LinkOutcome → Bool
  | .resolved _ => true
  | _ => false

/-! ## The unfurl aggregator (lines 168–219) -/

/-- The `unfurls` map, modelled as an association list with distinct keys in
insertion order (Go map assignment semantics: overwrite when the key exists,
append otherwise). -/
abbrev Batch := List (String × Attachment)

/-- `unfurls[link.URL] = att`: overwrite an existing entry for the key, or
append a new one. -/
def batchInsert (m : Batch) (k : String) (v : Attachment) : Batch :=
  if m.any (fun p => p.1 = k) then
    m.map (fun p => if p.1 = k then (k, v) else p)
  else m ++ [(k, v)]

/-- Result of one run of `unfurl`: the goroutine crashed with a panic, it
returned without posting (`len(unfurls) == 0`), or it made exactly one
`slackCli.PostMessage` call carrying the channel, the message timestamp and
the batch. -/
inductive UnfurlResult where
  | crashed
  | noPost
  | posted (channel timestamp : String) (batch : Batch)
deriving DecidableEq

/-- The link loop of `unfurl` followed by the final post decision at lines
211–215. -/
def unfurlGo (env : NotionEnv) (channel ts : String) :
    List SharedLink → Batch → UnfurlResult
  | [], acc => if acc.length = 0 then .noPost else .posted channel ts acc
  | l :: ls, acc =>
    match resolveLink env l with
    | .crashed => .crashed
    | .skipped => unfurlGo env channel ts ls acc
    | .resolved att => unfurlGo env channel ts ls (batchInsert acc l.url att)

/-- `unfurl` (lines 168–219): run the loop over `ev.Links` starting from an
empty map; post once iff the map is nonempty. -/
def unfurl (env : NotionEnv) (ev : LinkSharedEvent) : UnfurlResult :=
  unfurlGo env ev.channel ev.messageTimeStamp ev.links []

/-- The batch of the single outbound post, if one occurred. -/
def postedBatch : UnfurlResult → Option Batch
  | .posted _ _ b => some b
  | _ => none

/-- Channel and timestamp of the single outbound post, if one occurred. -/
def postedKey : UnfurlResult → Option (String × String)
  | .posted c t _ => some (c, t)
  | _ => none

/-! ## The HTTP handler (lines 77–139) -/

/-- Request headers, consumed only by the signature-verifier oracles. -/
abbrev Headers := List (String × String)

/-- The fields of `slackevents.ParseEvent`'s result that the handler reads:
the outer type, the inner event type, and the result of the type assertion
`ev.InnerEvent.Data.(*slackevents.LinkSharedEvent)` (`none` models a failed
assertion). -/
structure ParsedEvent where
  type : String
  innerType : String
  innerData : Option LinkSharedEvent
deriving DecidableEq

/-- Oracles for the handler's collaborators: `slack.NewSecretsVerifier`
(header well-formedness, `false` = constructor error), `sv.Ensure()` after
`sv.Write(body)` (HMAC match), `slackevents.ParseEvent`, and the
`json.Unmarshal` into `ChallengeResponse` used on the handshake path. -/
structure HandlerEnv where
  newVerifierOk : Headers → Bool
  ensureOk : Headers → String → Bool
  parseEvent : String → Option ParsedEvent
  parseChallenge : String → Option String

/-- An inbound HTTP request: method, headers, and the result of
`ioutil.ReadAll(r.Body)` (`none` = read error). -/
structure Request where
  method : String
  headers : Headers
  bodyRead : Option String
deriving DecidableEq

/-- The response the handler writes: status, optional `Content-Type` header,
body. -/
structure Response where
  status : Nat
  contentType : Option String
  body : String
deriving DecidableEq

/-- `w.WriteHeader(http.StatusBadRequest)` with nothing written. -/
def badRequest : Response :=
  { status := 400, contentType := none, body := "" }

/-- Side effect of the handler besides the response: nothing, or the
`go unfurl(inEv)` spawn. -/
inductive Action where
  | noAction
  | spawnUnfurl (ev : LinkSharedEvent)
deriving DecidableEq

/-- `slackevents.URLVerification`. -/
def URLVerification : String := "url_verification"

/-- `slackevents.CallbackEvent`. -/
def CallbackEvent : String := "event_callback"

/-- `slackevents.LinkShared`. -/
def LinkShared : String := "link_shared"

/-- The handler `index` (lines 77–139), translated branch by branch.  The
write-error branches after a successful `w.Write` are not modelled (writes
succeed); everything else follows the source order: read body, construct the
secrets verifier, `Ensure`, parse the event, then dispatch on the event
type. -/
def index (env : HandlerEnv) (r : Request) : Response × Action :=
  if r.method = "GET" then
    ({ status := 200, contentType := none, body := "Hello" }, .noAction)
  else if r.method = "POST" then
    match r.bodyRead with
    | none => (badRequest, .noAction)
    | some body =>
      if ¬ env.newVerifierOk r.headers then (badRequest, .noAction)
      else if ¬ env.ensureOk r.headers body then (badRequest, .noAction)
      else
        match env.parseEvent body with
        | none => (badRequest, .noAction)
        | some ev =>
          if ev.type = URLVerification then
            match env.parseChallenge body with
            | none => (badRequest, .noAction)
            | some challenge =>
              ({ status := 200, contentType := some "text/plain",
                 body := challenge }, .noAction)
          else if ev.type = CallbackEvent then
            if ev.innerType ≠ LinkShared then
              ({ status := 200, contentType := none, body := "ok" }, .noAction)
            else
              match ev.innerData with
              | none => (badRequest, .noAction)
              | some inEv =>
                ({ status := 200, contentType := none, body := "ok" },
                 .spawnUnfurl inEv)
          else
            ({ status := 200, contentType := none, body := "" }, .noAction)
  else
    ({ status := 405, contentType := none,
       body := "method not allowed\n" }, .noAction)

/-! ## Concrete fixtures for witnesses and counterexamples -/

/-- A `NotionEnv` whose URL parser splits nothing off (query and fragment
empty), with identity ID extraction and a given page table. -/
def plainEnv (pages : String → Option Page) : NotionEnv :=
  { parseURL := fun s => some { base := s, rawQuery := "", fragment := "" }
    extractID := fun s => s
    downloadPage := pages }

/-- A page with a nonempty root title. -/
def samplePage : Page :=
  { root := { title := "Doc", tableViews := [] }
    markdown := "Doc\n\nbody line" }

/-- A page with an empty root title and no table views: the input on which
lines 192–194 of the source panic. -/
def crashPage : Page :=
  { root := { title := "", tableViews := [] }
    markdown := "\n\nbody" }

/-- Environment that returns `crashPage` for every download. -/
def crashEnv : NotionEnv := plainEnv (fun _ => some crashPage)

/-- A matching-domain link. -/
def notionLink : SharedLink :=
  { domain := "x.notion.so", url := "https://x.notion.so/Doc-abc" }

/-- Environment that returns `samplePage` for every download. -/
def sampleEnv : NotionEnv := plainEnv (fun _ => some samplePage)

/-- A non-matching-domain link. -/
def otherLink : SharedLink :=
  { domain := "example.com", url := "https://example.com/page" }

/-- An event carrying the same successful link twice plus one non-matching
link: 3 links, of which 2 resolve successfully, sharing one URL. -/
def dupEvent : LinkSharedEvent :=
  { channel := "C1", messageTimeStamp := "123.45"
    links := [notionLink, notionLink, otherLink] }

/-- A parsed `link_shared` callback event fixture. -/
def callbackParsed : ParsedEvent where
  type := "event_callback"
  innerType := "link_shared"
  innerData := some { channel := "C1", messageTimeStamp := "1.2", links := [notionLink] }

/-- A parsed handshake-challenge event fixture. -/
def challengeParsed : ParsedEvent where
  type := "url_verification"
  innerType := ""
  innerData := none

/-- Handler environment whose secrets-verifier construction always fails. -/
def envSigFail : HandlerEnv where
  newVerifierOk := fun _ => false
  ensureOk := fun _ _ => true
  parseEvent := fun _ => some callbackParsed
  parseChallenge := fun _ => some "tok"

/-- Handler environment that verifies every request and parses every body as
a handshake challenge with token `"ch4llenge"`. -/
def envChallenge : HandlerEnv where
  newVerifierOk := fun _ => true
  ensureOk := fun _ _ => true
  parseEvent := fun _ => some challengeParsed
  parseChallenge := fun _ => some "ch4llenge"

/-- A POST request with an empty header list and body `"body"`. -/
def reqPost : Request :=
  { method := "POST", headers := [], bodyRead := some "body" }

/-- An event whose only link has a non-matching domain. -/
def noMatchEvent : LinkSharedEvent :=
  { channel := "C2", messageTimeStamp := "9.9", links := [otherLink] }

/-- An event whose only link downloads `crashPage` under `crashEnv`. -/
def crashEvent : LinkSharedEvent :=
  { channel := "C", messageTimeStamp := "1.2", links := [notionLink] }

/-- Abbreviation for a `LinkSharedEvent` literal. -/
def mkEvent (ch ts : String) (links : List SharedLink) : LinkSharedEvent :=
  { channel := ch, messageTimeStamp := ts, links := links }

/-- The attachment literal of lines 203–208: `Footer` is always `"Notion"`
and `TitleLink` is the original URL. -/
def mkAttachment (title url text : String) : Attachment :=
  { title := title, titleLink := url, footer := "Notion", text := text }

/-- The keys of a batch, in insertion order. -/
def batchKeys (m : Batch) : List String := m.map Prod.fst

/-- One loop iteration viewed as a fold step on the `unfurls` map (only
meaningful when the iteration does not crash). -/
def unfurlStep (env : NotionEnv) (m : Batch) (l : SharedLink) : Batch :=
  match resolveLink env l with
  | .resolved att => batchInsert m l.url att
  | _ => m

/-- Environment whose URL parser always fails. -/
def parseFailEnv : NotionEnv where
  parseURL := fun _ => none
  extractID := fun s => s
  downloadPage := fun _ => none

/-- An event with one successful link and one non-matching link. -/
def mixedEvent : LinkSharedEvent :=
  { channel := "C3", messageTimeStamp := "7.7", links := [notionLink, otherLink] }

/-- The parsed form of the spec's end-to-end example URL
`https://x.notion.so/Doc-abc123?v=1`. -/
def e2eURL : URL :=
  { base := "https://x.notion.so/Doc-abc123", rawQuery := "v=1", fragment := "" }

/-- The spec's end-to-end example link. -/
def e2eLink : SharedLink :=
  { domain := "x.notion.so", url := "https://x.notion.so/Doc-abc123?v=1" }

/-- End-to-end environment: the example URL parses to `e2eURL`, IDs are the
URL itself, and only the query-stripped URL downloads a page. -/
def e2eEnv : NotionEnv where
  parseURL := fun s => if s = "https://x.notion.so/Doc-abc123?v=1" then some e2eURL else none
  extractID := fun s => s
  downloadPage := fun s => if s = "https://x.notion.so/Doc-abc123" then some samplePage else none

/-! ## Theorems -/

/-- Every link of `links` skipped means the run posts nothing (it ends in
`noPost`, or in `crashed` before reaching the post). -/
theorem unfurlGo_all_skipped (env : NotionEnv) (c t : String) :
    ∀ links : List SharedLink,
      (∀ l ∈ links, isResolved (resolveLink env l) = false) →
      postedBatch (unfurlGo env c t links []) = none := by
  intro links h
  induction links with
  | nil => rfl
  | cons l ls ih =>
    have hl := h l (List.mem_cons_self l ls)
    have hls : ∀ x ∈ ls, isResolved (resolveLink env x) = false :=
      fun x hx => h x (List.mem_cons_of_mem l hx)
    cases hres : resolveLink env l with
    | crashed => simp [unfurlGo, hres, postedBatch]
    | skipped => simpa [unfurlGo, hres] using ih hls
    | resolved att => rw [hres] at hl; simp [isResolved] at hl

/-- C1: for every POST request whose signature verification fails — the
verifier constructor errors on the headers, or `Ensure` rejects the HMAC —
the handler answers HTTP 400 and spawns no unfurl task.  The handler
environment `env` is arbitrary, so the outcome is independent of the event
parser: the body is never parsed, and no outbound call can occur. -/
theorem signature_failure_rejected (env : HandlerEnv) (r : Request)
    (body : String)
    (hm : r.method = "POST") (hb : r.bodyRead = some body)
    (hv : env.newVerifierOk r.headers = false ∨ env.ensureOk r.headers body = false) :
    (index env r).1.status = 400 ∧ (index env r).2 = Action.noAction := by
  rcases hv with h | h <;> simp [index, hm, hb, h, badRequest]

/-- Witness for C1 at a concrete failing-verifier environment and request. -/
theorem signature_failure_rejected_witness :
    (index envSigFail reqPost).1.status = 400 ∧
      (index envSigFail reqPost).2 = Action.noAction :=
  signature_failure_rejected envSigFail reqPost "body" rfl rfl (Or.inl rfl)

/-- C5: for every validly signed handshake-challenge request, the response is
HTTP 200 with content type `text/plain` and the challenge token as body, and
no asynchronous work is started. -/
theorem handshake_challenge_echo (env : HandlerEnv) (r : Request)
    (body challenge : String) (pe : ParsedEvent)
    (hm : r.method = "POST") (hb : r.bodyRead = some body)
    (hv1 : env.newVerifierOk r.headers = true)
    (hv2 : env.ensureOk r.headers body = true)
    (hp : env.parseEvent body = some pe) (ht : pe.type = URLVerification)
    (hc : env.parseChallenge body = some challenge) :
    index env r
      = ({ status := 200, contentType := some "text/plain", body := challenge },
         Action.noAction) := by
  simp [index, hm, hb, hv1, hv2, hp, ht, hc]

/-- Witness for C5 at a concrete always-verifying environment. -/
theorem handshake_challenge_echo_witness :
    index envChallenge reqPost
      = ({ status := 200, contentType := some "text/plain", body := "ch4llenge" },
         Action.noAction) :=
  handshake_challenge_echo envChallenge reqPost "body" "ch4llenge"
    challengeParsed rfl rfl rfl rfl rfl rfl rfl

/-- C2 (code defect): on a fetched page whose root title is empty and whose
`TableViews` slice is empty, line 194 of the source indexes `TableViews[0]`
unconditionally, so title resolution panics instead of skipping the link;
the whole unfurl goroutine crashes. -/
theorem emptyTitle_noView_crashes :
    resolveTitle crashPage.root = TitleResult.panicIndex ∧
    resolveLink crashEnv notionLink = LinkOutcome.crashed ∧
    unfurl crashEnv crashEvent = UnfurlResult.crashed := by
  decide

/-- C3: a callback event in which no link resolves successfully (in
particular one with zero matching-domain links) produces no outbound post
call. -/
theorem no_success_no_post (env : NotionEnv) (ev : LinkSharedEvent)
    (h : ∀ l ∈ ev.links, isResolved (resolveLink env l) = false) :
    postedBatch (unfurl env ev) = none :=
  unfurlGo_all_skipped env ev.channel ev.messageTimeStamp ev.links h

/-- Witness for C3 on an event whose only link has a non-matching domain. -/
theorem no_success_no_post_witness :
    postedBatch (unfurl sampleEnv noMatchEvent) = none :=
  no_success_no_post sampleEnv noMatchEvent (by decide)

/-- C10: the domain filter is a literal, case-sensitive suffix test for
`".notion.so"`: any link whose domain fails it is skipped; in particular the
bare apex domain `"notion.so"` and the differently-cased `"x.Notion.so"` are
skipped for every environment. -/
theorem bare_apex_domain_filtered :
    (∀ (env : NotionEnv) (l : SharedLink),
        stringsHasSuffix l.domain ".notion.so" = false →
        resolveLink env l = LinkOutcome.skipped)
    ∧ (∀ (env : NotionEnv) (u : String),
        resolveLink env { domain := "notion.so", url := u } = LinkOutcome.skipped)
    ∧ (∀ (env : NotionEnv) (u : String),
        resolveLink env { domain := "x.Notion.so", url := u } = LinkOutcome.skipped) := by
  have h1 : ∀ (env : NotionEnv) (l : SharedLink),
      stringsHasSuffix l.domain ".notion.so" = false →
      resolveLink env l = LinkOutcome.skipped := by
    intro env l h
    simp [resolveLink, h]
  have h2 : stringsHasSuffix "notion.so" ".notion.so" = false := by decide
  have h3 : stringsHasSuffix "x.Notion.so" ".notion.so" = false := by decide
  exact ⟨h1, fun env u => h1 env _ h2, fun env u => h1 env _ h3⟩

/-- Witness for C10 on a concrete non-matching link. -/
theorem bare_apex_domain_filtered_witness :
    resolveLink sampleEnv otherLink = LinkOutcome.skipped :=
  bare_apex_domain_filtered.1 sampleEnv otherLink (by decide)

/-- Once the loop of `get_text` is past the two skipped indices, it appends
every line until 25 are collected: it computes `take (25 - acc.length)` of
the rest. -/
theorem collectLines_ge_two (xs : List String) :
    ∀ (acc : List String) (i : Nat), 2 ≤ i → acc.length < 25 →
      collectLines xs i acc = acc.reverse ++ xs.take (25 - acc.length) := by
  induction xs with
  | nil => intro acc i _ _; simp [collectLines]
  | cons l ls ih =>
    intro acc i hi hlen
    have hi0 : i ≠ 0 := by omega
    have hi1 : i ≠ 1 := by omega
    rw [collectLines]
    simp only [hi0, hi1, ne_eq, not_false_eq_true, and_self, if_true]
    by_cases hfull : (l :: acc).length ≥ 25
    · have h24 : acc.length = 24 := by simp at hfull; omega
      rw [if_pos hfull]
      have : 25 - acc.length = 1 := by omega
      simp [this, h24]
    · rw [if_neg hfull]
      have hcons : (l :: acc).length < 25 := by omega
      rw [ih (l :: acc) (i + 1) (by omega) hcons]
      have hstep : 25 - acc.length = (25 - (l :: acc).length) + 1 := by
        simp only [List.length_cons]; omega
      rw [hstep, List.take_succ_cons]
      simp

/-- The loop of `get_text` started at index 0 with an empty accumulator
collects exactly the first 25 lines after the first two. -/
theorem collectLines_eq_drop_take (xs : List String) :
    collectLines xs 0 [] = (xs.drop 2).take 25 := by
  match xs with
  | [] => rfl
  | [a] => rfl
  | a :: b :: rest =>
    have h1 : collectLines (a :: b :: rest) 0 [] = collectLines (b :: rest) 1 [] := by
      rw [collectLines]; simp
    have h2 : collectLines (b :: rest) 1 [] = collectLines rest 2 [] := by
      rw [collectLines]; simp
    rw [h1, h2, collectLines_ge_two rest [] 2 (by omega) (by simp)]
    simp

/-- Closed form of `get_text`: drop the first two lines, keep the next 25,
join with newline, truncate the code-point list to 1000. -/
theorem get_text_eq (page : Page) :
    get_text page
      = String.mk ((stringsJoinNL
          (((stringsSplitNL page.markdown).drop 2).take 25)).toList.take 1000) := by
  unfold get_text
  dsimp only
  rw [collectLines_eq_drop_take]
  by_cases h :
      (stringsJoinNL (((stringsSplitNL page.markdown).drop 2).take 25)).toList.length ≥ 1000
  · rw [if_pos h]
  · rw [if_neg h]
    have htake :
        List.take 1000
            (stringsJoinNL (((stringsSplitNL page.markdown).drop 2).take 25)).toList
          = (stringsJoinNL (((stringsSplitNL page.markdown).drop 2).take 25)).toList :=
      List.take_of_length_le (by omega)
    rw [htake]

/-- C7: the preview body is built by dropping the first two converted lines
regardless of content, keeping the first 25 remaining lines purely by
position (empty lines included), and joining with newline; the first two
converted lines never contribute. -/
theorem preview_line_window (page : Page) :
    get_text page
      = String.mk ((stringsJoinNL
          (((stringsSplitNL page.markdown).drop 2).take 25)).toList.take 1000) :=
  get_text_eq page

/-- C6: truncation of the joined text is measured in Unicode code points:
text of more than 1000 code points is cut to exactly its first 1000 code
points (so no character is split), and text of at most 1000 code points is
returned unchanged. -/
theorem preview_truncation (page : Page) :
    ((stringsJoinNL (((stringsSplitNL page.markdown).drop 2).take 25)).toList.length ≤ 1000 →
      get_text page = stringsJoinNL (((stringsSplitNL page.markdown).drop 2).take 25))
    ∧ (1000 < (stringsJoinNL (((stringsSplitNL page.markdown).drop 2).take 25)).toList.length →
      (get_text page).toList
          = (stringsJoinNL (((stringsSplitNL page.markdown).drop 2).take 25)).toList.take 1000
        ∧ (get_text page).toList.length = 1000) := by
  have heq := get_text_eq page
  constructor
  · intro hle
    rw [heq, List.take_of_length_le hle]
    rfl
  · intro hgt
    rw [heq]
    constructor
    · rfl
    · show (List.take 1000 _).length = 1000
      rw [List.length_take]
      omega

/-- Witness for C6 on a short page (the unchanged branch). -/
theorem preview_truncation_witness : get_text samplePage = "body line" :=
  ((preview_truncation samplePage).1 (by decide)).trans (by decide)

/-- A link whose resolution is skipped is invisible to the rest of the run:
the loop continues over the remaining links with the same map, wherever the
link sits and whatever the map already holds. -/
theorem skipped_link_removal (env : NotionEnv) (c t : String) (l : SharedLink)
    (hl : resolveLink env l = LinkOutcome.skipped) :
    ∀ (pre post : List SharedLink) (acc : Batch),
      unfurlGo env c t (pre ++ l :: post) acc = unfurlGo env c t (pre ++ post) acc := by
  intro pre
  induction pre with
  | nil => intro post acc; simp [unfurlGo, hl]
  | cons p ps ih =>
    intro post acc
    simp only [List.cons_append]
    cases hres : resolveLink env p with
    | crashed => simp [unfurlGo, hres]
    | skipped => simp only [unfurlGo, hres]; exact ih post acc
    | resolved att => simp only [unfurlGo, hres]; exact ih post _

/-- C9: a link whose URL fails to parse, or whose document download fails, is
logged and skipped by itself: the run over the event equals the run over the
same event with that link removed, so every remaining link is still processed
and the batch is never aborted. -/
theorem per_link_failure_isolated (env : NotionEnv) (ch ts : String)
    (pre post : List SharedLink) (l : SharedLink)
    (hdom : stringsHasSuffix l.domain ".notion.so" = true)
    (hfail : env.parseURL l.url = none ∨
      ∃ u, env.parseURL l.url = some u ∧
        env.downloadPage (env.extractID (stripQueryFragment u).toString) = none) :
    unfurl env (mkEvent ch ts (pre ++ l :: post))
      = unfurl env (mkEvent ch ts (pre ++ post)) := by
  have hskip : resolveLink env l = LinkOutcome.skipped := by
    rcases hfail with h | ⟨u, hu, hd⟩
    · simp [resolveLink, hdom, h]
    · simp [resolveLink, hdom, hu, hd]
  exact skipped_link_removal env ch ts l hskip pre post []

/-- Witness for C9: a parse-failing link is dropped from a one-link event. -/
theorem per_link_failure_isolated_witness :
    unfurl parseFailEnv (mkEvent "C" "1" [notionLink])
      = unfurl parseFailEnv (mkEvent "C" "1" []) :=
  per_link_failure_isolated parseFailEnv "C" "1" [] [] notionLink (by decide) (Or.inl rfl)

/-- Inserting a fresh key appends the entry at the end of the map. -/
theorem batchInsert_fresh (m : Batch) (k : String) (v : Attachment)
    (h : k ∉ batchKeys m) : batchInsert m k v = m ++ [(k, v)] := by
  have hc : ¬ (m.any (fun p => p.1 = k) = true) := by
    intro hc
    rcases List.any_eq_true.mp hc with ⟨p, hp, hpk⟩
    exact h (List.mem_map.mpr ⟨p, hp, by simpa using hpk⟩)
  unfold batchInsert
  rw [if_neg hc]

/-- When no link crashes, the loop is the fold of `unfurlStep` followed by
the emptiness test of lines 211–215. -/
theorem unfurlGo_eq_foldl (env : NotionEnv) (c t : String) :
    ∀ (links : List SharedLink) (acc : Batch),
      (∀ l ∈ links, resolveLink env l ≠ LinkOutcome.crashed) →
      unfurlGo env c t links acc
        = if (links.foldl (unfurlStep env) acc).length = 0 then UnfurlResult.noPost
          else UnfurlResult.posted c t (links.foldl (unfurlStep env) acc) := by
  intro links
  induction links with
  | nil => intro acc _; rfl
  | cons l ls ih =>
    intro acc h
    have hls : ∀ x ∈ ls, resolveLink env x ≠ LinkOutcome.crashed :=
      fun x hx => h x (List.mem_cons_of_mem l hx)
    cases hres : resolveLink env l with
    | crashed => exact absurd hres (h l (List.mem_cons_self l ls))
    | skipped =>
      have h1 : unfurlGo env c t (l :: ls) acc = unfurlGo env c t ls acc := by
        simp only [unfurlGo, hres]
      have h2 : (l :: ls).foldl (unfurlStep env) acc = ls.foldl (unfurlStep env) acc := by
        simp [unfurlStep, hres]
      rw [h1, h2, ih acc hls]
    | resolved att =>
      have h1 : unfurlGo env c t (l :: ls) acc
          = unfurlGo env c t ls (batchInsert acc l.url att) := by
        simp only [unfurlGo, hres]
      have h2 : (l :: ls).foldl (unfurlStep env) acc
          = ls.foldl (unfurlStep env) (batchInsert acc l.url att) := by
        simp [unfurlStep, hres]
      rw [h1, h2, ih _ hls]

/-- Folding `unfurlStep` over links whose successful URLs are distinct and
fresh for the accumulator grows the map by exactly one entry per success,
appending exactly those URLs as keys. -/
theorem foldl_unfurlStep_length (env : NotionEnv) :
    ∀ (links : List SharedLink) (acc : Batch),
      ((links.filter (fun l => isResolved (resolveLink env l))).map
        (fun l => l.url)).Nodup →
      (∀ l ∈ links, isResolved (resolveLink env l) = true → l.url ∉ batchKeys acc) →
      (links.foldl (unfurlStep env) acc).length
          = acc.length + (links.filter (fun l => isResolved (resolveLink env l))).length
        ∧ batchKeys (links.foldl (unfurlStep env) acc)
          = batchKeys acc
            ++ (links.filter (fun l => isResolved (resolveLink env l))).map
                (fun l => l.url) := by
  intro links
  induction links with
  | nil => intro acc _ _; simp
  | cons l ls ih =>
    intro acc hnd hdisj
    cases hres : resolveLink env l with
    | resolved att =>
      have hl : isResolved (resolveLink env l) = true := by rw [hres]; rfl
      have hfilter : (l :: ls).filter (fun x => isResolved (resolveLink env x))
          = l :: ls.filter (fun x => isResolved (resolveLink env x)) :=
        List.filter_cons_of_pos hl
      rw [hfilter] at hnd
      simp only [List.map_cons, List.nodup_cons] at hnd
      obtain ⟨hheadnotin, hndtail⟩ := hnd
      have hfresh : l.url ∉ batchKeys acc := hdisj l (List.mem_cons_self l ls) hl
      have hstep : (l :: ls).foldl (unfurlStep env) acc
          = ls.foldl (unfurlStep env) (acc ++ [(l.url, att)]) := by
        simp [unfurlStep, hres, batchInsert_fresh acc l.url att hfresh]
      have hkeys' : batchKeys (acc ++ [(l.url, att)]) = batchKeys acc ++ [l.url] := by
        simp [batchKeys]
      have hdisj' : ∀ x ∈ ls, isResolved (resolveLink env x) = true →
          x.url ∉ batchKeys (acc ++ [(l.url, att)]) := by
        intro x hx hxres
        rw [hkeys']
        intro hmem
        rcases List.mem_append.mp hmem with hmem | hmem
        · exact hdisj x (List.mem_cons_of_mem l hx) hxres hmem
        · have hxurl : x.url = l.url := by simpa using hmem
          apply hheadnotin
          rw [← hxurl]
          exact List.mem_map.mpr
            ⟨x, List.mem_filter.mpr ⟨hx, hxres⟩, rfl⟩
      obtain ⟨ihlen, ihkeys⟩ := ih (acc ++ [(l.url, att)]) hndtail hdisj'
      constructor
      · rw [hstep, ihlen, hfilter]
        simp
        omega
      · rw [hstep, ihkeys, hkeys', hfilter]
        simp
    | skipped =>
      have hl : isResolved (resolveLink env l) = false := by rw [hres]; rfl
      have hfilter : (l :: ls).filter (fun x => isResolved (resolveLink env x))
          = ls.filter (fun x => isResolved (resolveLink env x)) :=
        List.filter_cons_of_neg (by simp [hl])
      rw [hfilter] at hnd
      have hstep : (l :: ls).foldl (unfurlStep env) acc
          = ls.foldl (unfurlStep env) acc := by
        simp [unfurlStep, hres]
      have hdisj' : ∀ x ∈ ls, isResolved (resolveLink env x) = true →
          x.url ∉ batchKeys acc :=
        fun x hx => hdisj x (List.mem_cons_of_mem l hx)
      obtain ⟨ihlen, ihkeys⟩ := ih acc hnd hdisj'
      rw [hstep, hfilter]
      exact ⟨ihlen, ihkeys⟩
    | crashed =>
      have hl : isResolved (resolveLink env l) = false := by rw [hres]; rfl
      have hfilter : (l :: ls).filter (fun x => isResolved (resolveLink env x))
          = ls.filter (fun x => isResolved (resolveLink env x)) :=
        List.filter_cons_of_neg (by simp [hl])
      rw [hfilter] at hnd
      have hstep : (l :: ls).foldl (unfurlStep env) acc
          = ls.foldl (unfurlStep env) acc := by
        simp [unfurlStep, hres]
      have hdisj' : ∀ x ∈ ls, isResolved (resolveLink env x) = true →
          x.url ∉ batchKeys acc :=
        fun x hx => hdisj x (List.mem_cons_of_mem l hx)
      obtain ⟨ihlen, ihkeys⟩ := ih acc hnd hdisj'
      rw [hstep, hfilter]
      exact ⟨ihlen, ihkeys⟩

/-- C4 counterexample: an event with 3 links of which 2 resolve successfully
(sharing one URL) yields one post whose batch has 1 entry, not 2: Go map
assignment merges duplicate URLs. -/
theorem duplicate_url_counterexample :
    dupEvent.links.length = 3
    ∧ (dupEvent.links.filter
        (fun l => isResolved (resolveLink sampleEnv l))).length = 2
    ∧ (postedBatch (unfurl sampleEnv dupEvent)).map List.length = some 1 := by
  decide

/-- C4 (amended): for an event in which `M ≥ 1` links resolve successfully,
the successful links carry pairwise distinct URLs, and no link crashes title
resolution, exactly one outbound post occurs, keyed by the event's channel
and message timestamp, and its batch has exactly `M` entries. -/
theorem one_post_with_batch_of_distinct_successes (env : NotionEnv)
    (ev : LinkSharedEvent) (M : Nat)
    (hM : (ev.links.filter (fun l => isResolved (resolveLink env l))).length = M)
    (h1 : 1 ≤ M)
    (hnc : ∀ l ∈ ev.links, resolveLink env l ≠ LinkOutcome.crashed)
    (hnd : ((ev.links.filter (fun l => isResolved (resolveLink env l))).map
      (fun l => l.url)).Nodup) :
    postedKey (unfurl env ev) = some (ev.channel, ev.messageTimeStamp)
    ∧ (postedBatch (unfurl env ev)).map List.length = some M := by
  have hrun := unfurlGo_eq_foldl env ev.channel ev.messageTimeStamp ev.links [] hnc
  have hcount := foldl_unfurlStep_length env ev.links [] hnd
    (by intro x _ _; simp [batchKeys])
  have hlen : (ev.links.foldl (unfurlStep env) []).length = M := by
    rw [hcount.1, hM]; simp
  have hne : ¬ ((ev.links.foldl (unfurlStep env) []).length = 0) := by omega
  show postedKey (unfurlGo env ev.channel ev.messageTimeStamp ev.links []) = _
    ∧ (postedBatch (unfurlGo env ev.channel ev.messageTimeStamp ev.links [])).map
        List.length = some M
  rw [hrun, if_neg hne]
  exact ⟨rfl, by simp [postedBatch, hlen]⟩

/-- Witness for the amended C4: one success out of two links posts a batch of
one entry. -/
theorem one_post_with_batch_of_distinct_successes_witness :
    postedKey (unfurl sampleEnv mixedEvent)
        = some (mixedEvent.channel, mixedEvent.messageTimeStamp)
    ∧ (postedBatch (unfurl sampleEnv mixedEvent)).map List.length = some 1 :=
  one_post_with_batch_of_distinct_successes sampleEnv mixedEvent 1
    (by decide) (by decide) (by decide) (by decide)

/-- C8: for a successfully resolved link, the page is downloaded by the
identifier extracted from the URL with query string and fragment cleared
(`hfetch` keys the download by exactly that string, for an otherwise
arbitrary environment), yet the batch entry and the attachment's title link
use the original unmodified URL; a link with a non-matching domain produces
no entry. -/
theorem normalized_fetch_original_key (env : NotionEnv) (ch ts : String)
    (link : SharedLink) (u : URL) (page : Page) (title : String)
    (hdom : stringsHasSuffix link.domain ".notion.so" = true)
    (hparse : env.parseURL link.url = some u)
    (hfetch : env.downloadPage (env.extractID (stripQueryFragment u).toString)
      = some page)
    (htitle : resolveTitle page.root = TitleResult.ok title) :
    resolveLink env link
        = LinkOutcome.resolved (mkAttachment title link.url (get_text page))
    ∧ (stripQueryFragment u).rawQuery = "" ∧ (stripQueryFragment u).fragment = ""
    ∧ unfurl env (mkEvent ch ts [link])
        = UnfurlResult.posted ch ts
            [(link.url, mkAttachment title link.url (get_text page))]
    ∧ (∀ l2 : SharedLink, stringsHasSuffix l2.domain ".notion.so" = false →
        resolveLink env l2 = LinkOutcome.skipped) := by
  have hres : resolveLink env link
      = LinkOutcome.resolved (mkAttachment title link.url (get_text page)) := by
    simp [resolveLink, hdom, hparse, hfetch, htitle, mkAttachment]
  refine ⟨hres, rfl, rfl, ?_, ?_⟩
  · show unfurlGo env ch ts [link] [] = _
    simp [unfurlGo, hres, batchInsert]
  · intro l2 h2
    simp [resolveLink, h2]

/-- Witness for C8 on the spec's end-to-end example: the page is stored only
under the query-stripped URL, yet the batch key is the original URL with its
query string. -/
theorem normalized_fetch_original_key_witness :
    unfurl e2eEnv (mkEvent "C" "1.2" [e2eLink])
      = UnfurlResult.posted "C" "1.2"
          [(e2eLink.url, mkAttachment "Doc" e2eLink.url (get_text samplePage))] :=
  (normalized_fetch_original_key e2eEnv "C" "1.2" e2eLink e2eURL samplePage "Doc"
    (by decide) (by decide) (by decide) (by decide)).2.2.2.1

end Deglacer
